import Mathlib

/-!
Verification of the downtime-activities module core
(`src/downtime-module.js`): the `DowntimeActivity` data schema, the
outcome-resolution routine `rollDowntimeActivity`, the completion
routine `performActivity`, and the add/remove outcome handlers of
`DowntimeActivitySheet.activateListeners`.

Host collaborators (dice engine, chat log, notification bus,
localization, rendering) are modelled at their boundary: localized
strings are their keys, the dice engine is an `Option Int` argument
(`none` models an evaluation failure thrown by `Roll.evaluate`), and
`ui.notifications` calls are collected into an output list.
-/

namespace Downtime

/-- One entry of the `outcomes` array field (`defineSchema`, lines
34-41 of `downtime-module.js`): `minRoll`, `maxRoll` are integer
number fields, `description` an HTML field. -/
structure OutcomeRange where
  minRoll : Int
  maxRoll : Int
  description : String
deriving Repr, DecidableEq

/-- The `system` data of a `DowntimeActivity` item, as declared by
`DowntimeActivity.defineSchema` (lines 26-43). -/
structure ActivityRecord where
  description : String
  duration : String
  cost : String
  isComplete : Bool
  rollDie : String
  currentOutcome : String
  outcomes : List OutcomeRange
deriving Repr, DecidableEq

/-- A freshly created record, taking every field's `initial` value
from `defineSchema` (lines 26-43). -/
def defaultRecord : ActivityRecord :=
  { description := ""
    duration := "1 day"
    cost := "0"
    isComplete := false
    rollDie := "1d20"
    currentOutcome := ""
    outcomes :=
      [ { minRoll := 1, maxRoll := 7, description := "" }
      , { minRoll := 8, maxRoll := 15, description := "" }
      , { minRoll := 16, maxRoll := 20, description := "" } ] }

/-- A `ui.notifications` call observed during an operation, keyed by
the localization key it passes. -/
inductive Notification where
  | warn (key : String)
  | info (key : String)
  | error (key : String)
deriving Repr, DecidableEq

/-- `true` exactly on the notifications that report a failure to the
user (`ui.notifications.warn` / `ui.notifications.error`). -/
def Notification.isFailure : Notification → Bool
  | .warn _ => true
  | .error _ => true
  | .info _ => false

/-- The localization key passed to `game.i18n.localize` when no
outcome range matches the roll (line 81). -/
def noOutcomeFound : String := "DOWNTIME.NoOutcomeFound"

/-- The scan of lines 73-79: walk `outcomes` in order and return the
first `outcome` with `rollResult >= outcome.minRoll && rollResult <=
outcome.maxRoll`, or `none` when the loop finishes without a match. -/
def findMatchedOutcome (rollResult : Int) : List OutcomeRange → Option OutcomeRange
  | [] => none
  | o :: rest =>
    if rollResult ≥ o.minRoll ∧ rollResult ≤ o.maxRoll then some o
    else findMatchedOutcome rollResult rest

/-- Lines 73-84: the outcome text computed from a roll result — the
matched outcome's `description`, or the `noOutcomeFound` key when
`matchedOutcome` stays `null`. -/
def resolveOutcome (rollResult : Int) (outcomes : List OutcomeRange) : String :=
  match findMatchedOutcome rollResult outcomes with
  | some o => o.description
  | none => noOutcomeFound

/-- `DowntimeActivity.rollDowntimeActivity` (lines 62-108).
`rollResult` stands for the host dice engine: `some n` when
`new Roll(rollExpression).evaluate` yields total `n`, `none` when it
throws (the `catch` branch, lines 104-107). Returns the record after
the call together with the notifications emitted. -/
def rollDowntimeActivity (r : ActivityRecord) (rollResult : Option Int) :
    ActivityRecord × List Notification :=
  if r.rollDie = "" then
    (r, [Notification.warn "DOWNTIME.NoRollDieWarning"])
  else
    match rollResult with
    | none => (r, [Notification.error "DOWNTIME.RollError"])
    | some n =>
      let outcomeText := resolveOutcome n r.outcomes
      ({ r with currentOutcome := outcomeText },
        [Notification.info "DOWNTIME.RollCompleteNotification"])

/-- `DowntimeActivity.performActivity` (lines 114-122): submits
`{"system.isComplete": true}` to the document update collaborator and
notifies completion. -/
def performActivity (r : ActivityRecord) : ActivityRecord × List Notification :=
  ({ r with isComplete := true },
    [Notification.info "DOWNTIME.ActivityCompletedNotification"])

/-- The `.add-outcome-button` click handler (lines 178-184): pushes
the default new outcome `{minRoll: 1, maxRoll: 20, description: ""}`
onto a clone of `system.outcomes` and submits it as the update. -/
def addOutcome (r : ActivityRecord) : ActivityRecord × List Notification :=
  ({ r with
      outcomes := r.outcomes ++ [{ minRoll := 1, maxRoll := 20, description := "" }] },
    [])

/-- `Array.prototype.splice(start, 1)` on a list, as the
`.remove-outcome-button` handler calls it (line 191): a negative
`start` counts from the end (clamped at 0), a `start` past the end is
clamped to the length (so nothing is deleted there). -/
def spliceRemoveOne (xs : List OutcomeRange) (start : Int) : List OutcomeRange :=
  let len : Int := xs.length
  let actualStart : Nat :=
    if start < 0 then (max (len + start) 0).toNat else (min start len).toNat
  xs.take actualStart ++ xs.drop (actualStart + 1)

/-- The `.remove-outcome-button` click handler (lines 187-194).
`index` is `parseInt(ev.currentTarget.dataset.index)`: `none` models
`NaN` (a non-numeric dataset index), which `splice` coerces to 0. The
handler performs the splice and submits the update; it contains no
validation and no notification call. -/
def removeOutcome (r : ActivityRecord) (index : Option Int) :
    ActivityRecord × List Notification :=
  let start : Int := match index with
    | some i => i
    | none => 0
  ({ r with outcomes := spliceRemoveOne r.outcomes start }, [])

/-- One user-triggered core operation, as reachable from the sheet's
listeners (lines 160-195). -/
inductive Op where
  | roll (result : Option Int)
  | complete
  | add
  | remove (index : Option Int)
deriving Repr

/-- Apply one operation to a record, discarding the notifications. -/
def applyOp (r : ActivityRecord) : Op → ActivityRecord
  | .roll res => (rollDowntimeActivity r res).1
  | .complete => (performActivity r).1
  | .add => (addOutcome r).1
  | .remove i => (removeOutcome r i).1

/-- Apply a sequence of operations in order. -/
def applyOps (r : ActivityRecord) (ops : List Op) : ActivityRecord :=
  ops.foldl applyOp r

/-- The three-range example table of the spec, with descriptions
"A", "B", "C". -/
def exampleOutcomes : List OutcomeRange :=
  [ { minRoll := 1, maxRoll := 7, description := "A" }
  , { minRoll := 8, maxRoll := 15, description := "B" }
  , { minRoll := 16, maxRoll := 20, description := "C" } ]

/-- Claim C9: a newly created record starts with exactly the three
default ranges 1-7, 8-15, 16-20, each with empty description, with
`isComplete` false and `currentOutcome` empty. -/
theorem defaultRecord_initial_state :
    defaultRecord.outcomes =
      [ { minRoll := 1, maxRoll := 7, description := "" }
      , { minRoll := 8, maxRoll := 15, description := "" }
      , { minRoll := 16, maxRoll := 20, description := "" } ] ∧
    (∀ o ∈ defaultRecord.outcomes, o.description = "") ∧
    defaultRecord.isComplete = false ∧
    defaultRecord.currentOutcome = "" := by
  refine ⟨rfl, ?_, rfl, rfl⟩
  decide

/-- Claim C5: `performActivity` sets `isComplete` to true for every
record, emits no failure notification, and is idempotent — applying
it twice yields the same result as applying it once. -/
theorem performActivity_idempotent (r : ActivityRecord) :
    (performActivity r).1.isComplete = true ∧
    (∀ n ∈ (performActivity r).2, n.isFailure = false) ∧
    performActivity ((performActivity r).1) = performActivity r := by
  refine ⟨rfl, ?_, rfl⟩
  simp [performActivity, Notification.isFailure]

/-- Claim C10: `performActivity` modifies only `isComplete` — every
other field of the record is unchanged by the call. -/
theorem performActivity_frame (r : ActivityRecord) :
    (performActivity r).1.description = r.description ∧
    (performActivity r).1.duration = r.duration ∧
    (performActivity r).1.cost = r.cost ∧
    (performActivity r).1.rollDie = r.rollDie ∧
    (performActivity r).1.currentOutcome = r.currentOutcome ∧
    (performActivity r).1.outcomes = r.outcomes :=
  ⟨rfl, rfl, rfl, rfl, rfl, rfl⟩

/-- Claim C7: `addOutcome` appends the default range
`{minRoll: 1, maxRoll: 20, description: ""}` at the end of
`outcomes`, increasing its length by exactly one and leaving all
previously present ranges unchanged in their original order. -/
theorem addOutcome_appends_default (r : ActivityRecord) :
    (addOutcome r).1.outcomes =
      r.outcomes ++ [{ minRoll := 1, maxRoll := 20, description := "" }] ∧
    (addOutcome r).1.outcomes.length = r.outcomes.length + 1 ∧
    (addOutcome r).1.outcomes.take r.outcomes.length = r.outcomes := by
  refine ⟨rfl, by simp [addOutcome], ?_⟩
  simp [addOutcome]

/-- Claim C3: on a record whose roll expression is empty,
`rollDowntimeActivity` reports a warning notification to the user (it
is not silent) and leaves the whole record unchanged. -/
theorem rollDowntimeActivity_missing_expression (r : ActivityRecord)
    (res : Option Int) (h : r.rollDie = "") :
    (rollDowntimeActivity r res).1 = r ∧
    (rollDowntimeActivity r res).2 =
      [Notification.warn "DOWNTIME.NoRollDieWarning"] := by
  simp [rollDowntimeActivity, h]

/-- Witness for claim C3 at a concrete record with empty roll
expression. -/
theorem rollDowntimeActivity_missing_expression_witness :
    ({ defaultRecord with rollDie := "" } : ActivityRecord).rollDie = "" ∧
    ((rollDowntimeActivity { defaultRecord with rollDie := "" } (some 5)).1 =
        { defaultRecord with rollDie := "" } ∧
      (rollDowntimeActivity { defaultRecord with rollDie := "" } (some 5)).2 =
        [Notification.warn "DOWNTIME.NoRollDieWarning"]) :=
  ⟨rfl, rollDowntimeActivity_missing_expression _ (some 5) rfl⟩

/-- Claim C4: whenever `rollDowntimeActivity` reports a failure
notification (warning or error), the record is left entirely
unchanged — no partial mutation is visible. -/
theorem rollDowntimeActivity_failure_no_mutation (r : ActivityRecord)
    (res : Option Int)
    (h : ∃ n ∈ (rollDowntimeActivity r res).2, n.isFailure = true) :
    (rollDowntimeActivity r res).1 = r := by
  by_cases hd : r.rollDie = ""
  · simp [rollDowntimeActivity, hd]
  · cases res with
    | none => simp [rollDowntimeActivity, hd]
    | some n =>
      exfalso
      simp [rollDowntimeActivity, hd, Notification.isFailure] at h

/-- Witness for claim C4 at a concrete record whose roll evaluation
fails. -/
theorem rollDowntimeActivity_failure_no_mutation_witness :
    (∃ n ∈ (rollDowntimeActivity defaultRecord none).2, n.isFailure = true) ∧
    (rollDowntimeActivity defaultRecord none).1 = defaultRecord :=
  ⟨by decide, rollDowntimeActivity_failure_no_mutation defaultRecord none (by decide)⟩

/-- The loop of lines 73-79 returns the first matching range: either
`O` splits as `pre ++ o :: post` with `o` matching, nothing in `pre`
matching, and the scan returning `some o`; or nothing in `O` matches
and the scan returns `none`. -/
theorem findMatchedOutcome_first (r : Int) (O : List OutcomeRange) :
    (∃ pre o post, O = pre ++ o :: post ∧
      (o.minRoll ≤ r ∧ r ≤ o.maxRoll) ∧
      (∀ p ∈ pre, ¬(p.minRoll ≤ r ∧ r ≤ p.maxRoll)) ∧
      findMatchedOutcome r O = some o) ∨
    ((∀ o ∈ O, ¬(o.minRoll ≤ r ∧ r ≤ o.maxRoll)) ∧
      findMatchedOutcome r O = none) := by
  induction O with
  | nil => exact Or.inr ⟨by simp, rfl⟩
  | cons a rest ih =>
    by_cases ha : a.minRoll ≤ r ∧ r ≤ a.maxRoll
    · exact Or.inl ⟨[], a, rest, rfl, ha, by simp,
        by simp [findMatchedOutcome, ha.1, ha.2]⟩
    · have hstep : findMatchedOutcome r (a :: rest) = findMatchedOutcome r rest := by
        have : ¬(r ≥ a.minRoll ∧ r ≤ a.maxRoll) := ha
        simp [findMatchedOutcome, this]
      rcases ih with ⟨pre, o, post, hO, hm, hpre, heq⟩ | ⟨hall, heq⟩
      · refine Or.inl ⟨a :: pre, o, post, by rw [hO]; rfl, hm, ?_, by rw [hstep, heq]⟩
        intro p hp
        rcases List.mem_cons.mp hp with h | h
        · exact h ▸ ha
        · exact hpre p h
      · refine Or.inr ⟨?_, by rw [hstep, heq]⟩
        intro o ho
        rcases List.mem_cons.mp ho with h | h
        · exact h ▸ ha
        · exact hall o h

/-- Claim C1: for every roll result and every ordered range list,
outcome resolution returns the description of the first range
containing the roll, and the "no outcome found" sentinel when no
range contains it; on the three-range example it yields "A" for 1
and 7, "B" for 8, "C" for 20, and the sentinel for 21 and 0. -/
theorem resolveOutcome_first_match :
    (∀ (r : Int) (O : List OutcomeRange),
      (∃ pre o post, O = pre ++ o :: post ∧
        (o.minRoll ≤ r ∧ r ≤ o.maxRoll) ∧
        (∀ p ∈ pre, ¬(p.minRoll ≤ r ∧ r ≤ p.maxRoll)) ∧
        resolveOutcome r O = o.description) ∨
      ((∀ o ∈ O, ¬(o.minRoll ≤ r ∧ r ≤ o.maxRoll)) ∧
        resolveOutcome r O = noOutcomeFound)) ∧
    resolveOutcome 1 exampleOutcomes = "A" ∧
    resolveOutcome 7 exampleOutcomes = "A" ∧
    resolveOutcome 8 exampleOutcomes = "B" ∧
    resolveOutcome 20 exampleOutcomes = "C" ∧
    resolveOutcome 21 exampleOutcomes = noOutcomeFound ∧
    resolveOutcome 0 exampleOutcomes = noOutcomeFound := by
  refine ⟨?_, by decide, by decide, by decide, by decide, by decide, by decide⟩
  intro r O
  rcases findMatchedOutcome_first r O with ⟨pre, o, post, hO, hm, hpre, heq⟩ | ⟨hall, heq⟩
  · exact Or.inl ⟨pre, o, post, hO, hm, hpre, by rw [resolveOutcome, heq]⟩
  · exact Or.inr ⟨hall, by rw [resolveOutcome, heq]⟩

/-- Splicing one element at a nonnegative in-bounds index keeps the
prefix before the index and the suffix after it. -/
theorem spliceRemoveOne_in_bounds (xs : List OutcomeRange) (i : Int)
    (h0 : 0 ≤ i) (h : i ≤ (xs.length : Int)) :
    spliceRemoveOne xs i = xs.take i.toNat ++ xs.drop (i.toNat + 1) := by
  have hneg : ¬(i < 0) := by omega
  have hmin : (min i (xs.length : Int)).toNat = i.toNat := by omega
  simp only [spliceRemoveOne, if_neg hneg, hmin]

/-- Splicing one element at an index at or past the length removes
nothing. -/
theorem spliceRemoveOne_past_end (xs : List OutcomeRange) (i : Int)
    (h : (xs.length : Int) ≤ i) :
    spliceRemoveOne xs i = xs := by
  have hneg : ¬(i < 0) := by omega
  have hmin : (min i (xs.length : Int)).toNat = xs.length := by omega
  simp only [spliceRemoveOne, if_neg hneg, hmin]
  rw [List.take_length, List.drop_eq_nil_of_le (by omega)]
  simp

/-- Claim C6: with a valid index, `removeOutcome` removes exactly the
range at that index, decreasing the length by one and preserving the
relative order of all remaining ranges. -/
theorem removeOutcome_valid_index (r : ActivityRecord) (i : Int)
    (h0 : 0 ≤ i) (h : i < (r.outcomes.length : Int)) :
    (removeOutcome r (some i)).1.outcomes =
      r.outcomes.take i.toNat ++ r.outcomes.drop (i.toNat + 1) ∧
    (removeOutcome r (some i)).1.outcomes.length = r.outcomes.length - 1 := by
  have hs := spliceRemoveOne_in_bounds r.outcomes i h0 (le_of_lt h)
  refine ⟨by simpa [removeOutcome] using hs, ?_⟩
  simp only [removeOutcome, hs]
  simp [List.length_take, List.length_drop]
  omega

/-- Witness for claim C6 on the default record at index 1. -/
theorem removeOutcome_valid_index_witness :
    (0 ≤ (1 : Int) ∧ (1 : Int) < (defaultRecord.outcomes.length : Int)) ∧
    ((removeOutcome defaultRecord (some 1)).1.outcomes =
        defaultRecord.outcomes.take (1 : Int).toNat ++
          defaultRecord.outcomes.drop ((1 : Int).toNat + 1) ∧
      (removeOutcome defaultRecord (some 1)).1.outcomes.length =
        defaultRecord.outcomes.length - 1) :=
  ⟨⟨by decide, by decide⟩,
    removeOutcome_valid_index defaultRecord 1 (by decide) (by decide)⟩

/-- Counterexample to claim C2 as stated: at index -1 (not a valid
position) on the default record, `removeOutcome` does not leave
`outcomes` unchanged — splice counts a negative index from the end
and removes the last range — and it reports no notification at all,
so no IndexOutOfRange error reaches the user. -/
theorem removeOutcome_invalid_index_counterexample :
    (removeOutcome defaultRecord (some (-1))).1.outcomes ≠ defaultRecord.outcomes ∧
    (removeOutcome defaultRecord (some (-1))).2 = [] := by
  exact ⟨by decide, rfl⟩

/-- Claim C2 (amended): `removeOutcome` performs no validation and
never reports an error; with an index at or beyond the sequence
length it silently leaves `outcomes` exactly unchanged (no element
removed, no notification), while negative or non-numeric indices are
also accepted and may remove an element under splice semantics. -/
theorem removeOutcome_out_of_range_silent (r : ActivityRecord) (i : Int)
    (h : (r.outcomes.length : Int) ≤ i) :
    (removeOutcome r (some i)).1.outcomes = r.outcomes ∧
    (removeOutcome r (some i)).2 = [] := by
  refine ⟨?_, rfl⟩
  simp [removeOutcome, spliceRemoveOne_past_end r.outcomes i h]

/-- Witness for the amended claim C2 at index 5 on the default
record (length 3). -/
theorem removeOutcome_out_of_range_silent_witness :
    ((defaultRecord.outcomes.length : Int) ≤ 5) ∧
    ((removeOutcome defaultRecord (some 5)).1.outcomes = defaultRecord.outcomes ∧
      (removeOutcome defaultRecord (some 5)).2 = []) :=
  ⟨by decide, removeOutcome_out_of_range_silent defaultRecord 5 (by decide)⟩

/-- Each single core operation preserves a true `isComplete` flag. -/
theorem applyOp_preserves_isComplete (r : ActivityRecord) (op : Op)
    (h : r.isComplete = true) : (applyOp r op).isComplete = true := by
  cases op with
  | roll res =>
    by_cases hd : r.rollDie = ""
    · simpa [applyOp, rollDowntimeActivity, hd] using h
    · cases res <;> simpa [applyOp, rollDowntimeActivity, hd] using h
  | complete => rfl
  | add => simpa [applyOp, addOutcome] using h
  | remove i => simpa [applyOp, removeOutcome] using h

/-- Claim C8: `isComplete` is a one-way flag — once true, no sequence
of core operations (roll, complete, add outcome, remove outcome) ever
makes it false again. -/
theorem isComplete_one_way (r : ActivityRecord) (ops : List Op)
    (h : r.isComplete = true) : (applyOps r ops).isComplete = true := by
  induction ops generalizing r with
  | nil => exact h
  | cons op rest ih => exact ih (applyOp r op) (applyOp_preserves_isComplete r op h)

/-- Witness for claim C8: a completed record stays complete through a
concrete sequence of all four operations. -/
theorem isComplete_one_way_witness :
    ({ defaultRecord with isComplete := true } : ActivityRecord).isComplete = true ∧
    (applyOps { defaultRecord with isComplete := true }
      [Op.roll (some 3), Op.add, Op.remove (some 0), Op.roll none,
        Op.complete]).isComplete = true :=
  ⟨rfl, isComplete_one_way _ _ rfl⟩

end Downtime
